/-
Verification of the timescaledb-event-streamer replication core against
its natural-language specification.  Each section embeds one part of the
Go source as Lean definitions; theorems at the end of the file settle
the numbered claims.
-/
import Mathlib

set_option autoImplicit false

namespace TsdbStreamer

/-! ### Association-list maps

Go `map[string]V` values are modelled as association lists with
assignment (`setEntry`, which overwrites an existing key) and lookup.
Only the key-value content matters; entry order is irrelevant to every
statement below, which reads maps solely through `lookupEntry`. -/

def setEntry {α : Type} (k : String) (v : α) : List (String × α) → List (String × α)
  | [] => [(k, v)]
  | (k', v') :: rest => if k' = k then (k, v) :: rest else (k', v') :: setEntry k v rest

def lookupEntry {α : Type} (k : String) : List (String × α) → Option α
  | [] => none
  | (k', v') :: rest => if k' = k then some v' else lookupEntry k rest

/-! ### Configuration access (src/internal/configuring/configuration.go)

`GetOrDefault[V any](config, canonicalProperty, defaultValue)` first
consults an environment variable derived from the property key, then
walks the configuration document, and falls back to the default when
either source yields the zero value of `V`.

The reflection machinery is modelled by a `GoType` record: `isZero`
mirrors `reflect.Value.IsZero` for the concrete type `V` (the extra
`Kind() == Ptr && IsNil()` conjunct in the source is subsumed by
`IsZero` and therefore not modelled separately), and
`convertFromString` mirrors `reflect.Value.Convert` from the `string`
of the environment to `V`; `none` marks a conversion that Go does not
define (the source would panic there, a path no claim touches).
The configuration document walk (`findProperty` over toml tags) is
abstracted into a lookup function `String → Option V`: `none` means
some path component was missing, `some el` is the found leaf value
(already of the property type, as `Convert` between identical types is
the identity). -/

structure GoType (V : Type) where
  isZero : V → Bool
  convertFromString : String → Option V

/-- Go table of strings.ToUpper restricted to the ASCII range; other
code points are left unchanged (configuration property keys are plain
ASCII, so the Unicode cases of the Go function are never exercised). -/
def goUpperChar (c : Char) : Char :=
  match c with
  | 'a' => 'A' | 'b' => 'B' | 'c' => 'C' | 'd' => 'D' | 'e' => 'E' | 'f' => 'F'
  | 'g' => 'G' | 'h' => 'H' | 'i' => 'I' | 'j' => 'J' | 'k' => 'K' | 'l' => 'L'
  | 'm' => 'M' | 'n' => 'N' | 'o' => 'O' | 'p' => 'P' | 'q' => 'Q' | 'r' => 'R'
  | 's' => 'S' | 't' => 'T' | 'u' => 'U' | 'v' => 'V' | 'w' => 'W' | 'x' => 'X'
  | 'y' => 'Y' | 'z' => 'Z'
  | other => other

/-- strings.ReplaceAll(s, "_", "__") at the character-list level. -/
def doubleUnderscores : List Char → List Char
  | [] => []
  | c :: rest =>
    if c = '_' then '_' :: '_' :: doubleUnderscores rest
    else c :: doubleUnderscores rest

/-- strings.ReplaceAll(s, ".", "_") at the character-list level. -/
def dotsToUnderscores (l : List Char) : List Char :=
  l.map (fun c => if c = '.' then '_' else c)

/-- The environment-variable name computed by findEnvProperty:
upper-case the key, then double every underscore, then turn every dot
into an underscore. -/
def envVarNameChars (key : List Char) : List Char :=
  dotsToUnderscores (doubleUnderscores (key.map goUpperChar))

def envVarName (key : String) : String :=
  ⟨envVarNameChars key.data⟩

/-- The transformation as the specification words it: in a single pass
over the key, every original underscore becomes a double underscore,
every dot becomes a single underscore, and every other character is
upper-cased. -/
def specEnvVarNameChars (key : List Char) : List Char :=
  key.flatMap (fun c =>
    if c = '.' then ['_']
    else if c = '_' then ['_', '_']
    else [goUpperChar c])

/-- findEnvProperty: look up the derived environment variable, convert
its value to V, and accept it only when the converted value is not the
zero value of V. -/
def findEnvProperty {V : Type} (τ : GoType V) (env : String → Option String)
    (canonicalProperty : String) : Option V :=
  match env (envVarName canonicalProperty) with
  | some val =>
    match τ.convertFromString val with
    | some cv => if τ.isZero cv then none else some cv
    | none => none
  | none => none

/-- GetOrDefault: the environment override wins when present; otherwise
the configuration document is consulted, and its value is returned only
when it is not the zero value of V. -/
def GetOrDefault {V : Type} (τ : GoType V) (env : String → Option String)
    (cfg : String → Option V) (canonicalProperty : String) (defaultValue : V) : V :=
  match findEnvProperty τ env canonicalProperty with
  | some v => v
  | none =>
    match cfg canonicalProperty with
    | some element => if τ.isZero element then defaultValue else element
    | none => defaultValue

/-- The Go type string: zero value is the empty string, and conversion
from a string is the identity. -/
def stringGoType : GoType String :=
  { isZero := fun s => s = ""
    convertFromString := fun s => some s }

/-- The Go type bool: zero value is false; Go defines no conversion
from string to bool, so the environment path would panic (modelled as
no convertible value). -/
def boolGoType : GoType Bool :=
  { isZero := fun b => b = false
    convertFromString := fun _ => none }

/-- The Go type uint (modelled on Nat): zero value is 0; string to
uint is not a Go conversion. -/
def uintGoType : GoType Nat :=
  { isZero := fun n => n = 0
    convertFromString := fun _ => none }

/-- The Go type time.Duration (int64 nanoseconds, modelled on Int):
zero value is 0; string to integer is not a Go conversion. -/
def durationGoType : GoType Int :=
  { isZero := fun n => n = 0
    convertFromString := fun _ => none }

/-! ### Transaction resolver factory
(src/internal/replication/logicalreplicationresolver/factory.go)

NewTransactionResolver reads three window properties and returns either
the windowed transaction tracker or the plain logical replication
resolver.  The two concrete handler implementations live outside the
factory; only their identity and the tracker's configuration matter
here, so the result is a closed sum. -/

inductive ResolverChoice where
  | transactionTracker (timeout : Int) (maxSize : Nat)
  | logicalReplicationResolver
  deriving DecidableEq

def nanosecondsPerSecond : Int := 1000000000

/-- The enabled flag read by NewTransactionResolver. -/
def windowEnabled (env : String → Option String) (cfgBool : String → Option Bool) : Bool :=
  GetOrDefault boolGoType env cfgBool "postgresql.transaction.window.enabled" true

/-- The window timeout read by NewTransactionResolver:
time.Duration(60) as the default, multiplied by time.Second. -/
def windowTimeout (env : String → Option String) (cfgDur : String → Option Int) : Int :=
  GetOrDefault durationGoType env cfgDur "postgresql.transaction.window.timeout" 60
    * nanosecondsPerSecond

/-- The window maximum size read by NewTransactionResolver. -/
def windowMaxSize (env : String → Option String) (cfgUint : String → Option Nat) : Nat :=
  GetOrDefault uintGoType env cfgUint "postgresql.transaction.window.maxsize" 10000

def NewTransactionResolver (env : String → Option String)
    (cfgBool : String → Option Bool) (cfgDur : String → Option Int)
    (cfgUint : String → Option Nat) : ResolverChoice :=
  let enabled := windowEnabled env cfgBool
  let timeout := windowTimeout env cfgDur
  let maxSize := windowMaxSize env cfgUint
  if enabled && decide (maxSize > 0) then
    ResolverChoice.transactionTracker timeout maxSize
  else
    ResolverChoice.logicalReplicationResolver

/-! ### Replication context LSN state (src/unnamed/part_002, package context)

The four LSN positions and the last transaction id live on the
replication context behind one mutex; each accessor takes the lock, so
the methods are modelled as pure state transformers.  LSNs are uint64
WAL positions, modelled as Nat with the one addition that can wrap
taken modulo 2^64.  The state storage behind the state manager is the
slot-keyed Offset map. -/

def lsnModulus : Nat := 2 ^ 64

structure XLogData where
  walStart : Nat
  walDataLen : Nat
  serverTime : Nat

/-- Offset persisted per replication slot.  The lsn and timestamp
fields are written by AcknowledgeProcessed; the watermark field
(present per the specification's data model) is carried along
untouched. -/
structure Offset where
  lsn : Nat
  timestamp : Nat
  watermark : Bool
  deriving DecidableEq

/-- The zero Offset value produced by the statestorage.Offset{} literal. -/
def Offset.zero : Offset := { lsn := 0, timestamp := 0, watermark := false }

structure RCState where
  lastBeginLSN : Nat
  lastCommitLSN : Nat
  lastReceivedLSN : Nat
  lastProcessedLSN : Nat
  lastTransactionId : Nat
  deriving DecidableEq

/-- AcknowledgeReceived: lastReceived becomes WALStart + len(WALData)
in uint64 arithmetic. -/
def acknowledgeReceived (s : RCState) (xld : XLogData) : RCState :=
  { s with lastReceivedLSN := (xld.walStart + xld.walDataLen) % lsnModulus }

/-- SetPositionLSNs writes both positions unconditionally. -/
def setPositionLSNs (s : RCState) (receivedLSN processedLSN : Nat) : RCState :=
  { s with lastReceivedLSN := receivedLSN, lastProcessedLSN := processedLSN }

/-- The candidate lastProcessed value computed by AcknowledgeProcessed:
the explicit processedLSN when non-nil, otherwise WALStart +
len(WALData) in uint64 arithmetic. -/
def newProcessedLSN (xld : XLogData) (processedLSN : Option Nat) : Nat :=
  match processedLSN with
  | some p => p
  | none => (xld.walStart + xld.walDataLen) % lsnModulus

/-- AcknowledgeProcessed: raise lastProcessed when the candidate is
larger, then persist the slot's Offset with the updated lastProcessed
and the message's server time (retrieving the existing offset first so
that its remaining fields survive, or starting from the zero Offset).
Storage errors are out of scope of the modelled state machine. -/
def acknowledgeProcessed (slotName : String) (s : RCState)
    (storage : List (String × Offset)) (xld : XLogData)
    (processedLSN : Option Nat) : RCState × List (String × Offset) :=
  let newLast := newProcessedLSN xld processedLSN
  let s' := if newLast > s.lastProcessedLSN then { s with lastProcessedLSN := newLast } else s
  let o := (lookupEntry slotName storage).getD Offset.zero
  let o' := { o with lsn := s'.lastProcessedLSN, timestamp := xld.serverTime }
  (s', setEntry slotName o' storage)

/-! ### Schema structs and the schema builder (src/spi/schema/schemabuilder.go)

schema.Struct is a Go map[string]any.  The values that actually flow
into structs in this file are booleans, 64-bit integers, 64-bit
floats, strings, schema types, string slices (enum parameters), nested
structs and struct slices, captured by the closed sum SValue.  A
parsed float64 is represented by its source literal (its numeric value
is never inspected by the program or the claims).  Structs are
association lists read through lookupEntry; entry order mirrors the
source's assignment order but is irrelevant, as Go map iteration order
is unspecified. -/

inductive SchemaType where
  | INT8 | INT16 | INT32 | INT64 | FLOAT32 | FLOAT64
  | BOOLEAN | STRING | BYTES | ARRAY | MAP | STRUCT
  deriving DecidableEq

inductive SValue where
  | vb : Bool → SValue
  | vi : Int → SValue
  | vf : String → SValue
  | vs : String → SValue
  | vty : SchemaType → SValue
  | vstrs : List String → SValue
  | vobj : List (String × SValue) → SValue
  | varr : List (List (String × SValue)) → SValue

def SStruct := List (String × SValue)

/-- Struct field-name constants of the schema package.  Their
definitions are outside the provided sources; only their distinctness
matters, so they are fixed as their conventional Kafka Connect
spellings. -/
def FieldNameType : String := "type"
def FieldNameField : String := "field"
def FieldNameName : String := "name"
def FieldNameIndex : String := "index"
def FieldNameOptional : String := "optional"
def FieldNameDefault : String := "default"
def FieldNameFields : String := "fields"
def FieldNameKeySchema : String := "keySchema"
def FieldNameValueSchema : String := "valueSchema"

mutual

/-- schemaBuilderImpl.  Builder references inside fields and the
key and value schema builders make this a mutual inductive; an absent
(nil) sub-builder is None. -/
inductive SBuilder where
  | mk (fieldName : String) (schemaName : String) (schemaType : SchemaType)
       (version : Int) (optional : Bool) (defaultValue : Option String)
       (documentation : Option String) (index : Int)
       (parameters : List (String × SValue))
       (fields : List (String × SField))
       (keySchemaBuilder : Option SBuilder) (valueSchemaBuilder : Option SBuilder)

/-- fieldImpl: name, index, optional pre-built struct and the builder
cloned at insertion.  schemaStruct is never assigned in the source
file, so it is nil (None) on every field this file creates. -/
inductive SField where
  | mk (name : String) (index : Int)
       (schemaStruct : Option SStruct) (schemaBuilder : SBuilder)

end

/-- NewSchemaBuilder: all fields at their Go zero values except the
schema type and the index, which starts at -1. -/
def NewSchemaBuilder (schemaType : SchemaType) : SBuilder :=
  SBuilder.mk "" "" schemaType 0 false none none (-1) [] [] none none

/-- schemaBuilderImpl.Clone: a new builder struct whose initializer
lists every field of the source except index, which is therefore left
at the Go zero value 0 in the clone. -/
def SBuilder.clone : SBuilder → SBuilder
  | SBuilder.mk fieldName schemaName schemaType version optional defaultValue
      documentation _index parameters fields keySchemaBuilder valueSchemaBuilder =>
    SBuilder.mk fieldName schemaName schemaType version optional defaultValue
      documentation 0 parameters fields keySchemaBuilder valueSchemaBuilder

def SBuilder.index : SBuilder → Int
  | SBuilder.mk _ _ _ _ _ _ _ index _ _ _ _ => index

def SField.index : SField → Int
  | SField.mk _ index _ _ => index

/-! Coercion of the stored default-value string, from the tail of
schemaBuilderImpl.Build: strconv.ParseBool, then
strconv.ParseInt(s, 10, 64), then strconv.ParseFloat(s, 64), then the
raw string. -/

/-- strconv.ParseBool accepts exactly these twelve strings. -/
def goParseBool (s : String) : Option Bool :=
  match s with
  | "1" | "t" | "T" | "true" | "TRUE" | "True" => some true
  | "0" | "f" | "F" | "false" | "FALSE" | "False" => some false
  | _ => none

/-- Value of a non-empty all-decimal-digit string. -/
def decimalValue (l : List Char) : Option Nat :=
  l.foldl (fun acc c =>
    acc.bind (fun n => if c.isDigit then some (n * 10 + (c.toNat - 48)) else none))
    (some 0)

/-- strconv.ParseInt(s, 10, 64): an optional single sign, then one or
more decimal digits (no underscores with an explicit base), rejected
outside the int64 range. -/
def goParseInt64 (s : String) : Option Int :=
  let (neg, ds) :=
    match s.data with
    | '+' :: rest => (false, rest)
    | '-' :: rest => (true, rest)
    | l => (false, l)
  if ds.isEmpty then none
  else
    match decimalValue ds with
    | none => none
    | some n =>
      let v : Int := if neg then -(n : Int) else (n : Int)
      if -(2 ^ 63) ≤ v ∧ v < 2 ^ 63 then some v else none

def dropFloatSign : List Char → List Char
  | '+' :: rest => rest
  | '-' :: rest => rest
  | l => l

def charsEqIgnoreCase (a b : List Char) : Bool :=
  a.map goUpperChar == b.map goUpperChar

/-- The special values of strconv.ParseFloat: inf and infinity with an
optional sign, nan without one, all case-insensitive (after a sign the
switch in the source falls through to the infinity check only, so a
signed nan is rejected). -/
def specialFloatOk (l : List Char) : Bool :=
  match l with
  | [] => false
  | c :: rest =>
    if c = '+' || c = '-' then
      charsEqIgnoreCase rest "inf".data || charsEqIgnoreCase rest "infinity".data
    else
      charsEqIgnoreCase l "inf".data || charsEqIgnoreCase l "infinity".data ||
        charsEqIgnoreCase l "nan".data

def decimalDigitVal (c : Char) : Option Nat :=
  if c.isDigit then some (c.toNat - 48) else none

def hexDigitVal (c : Char) : Option Nat :=
  if c.isDigit then some (c.toNat - 48)
  else if 'a' ≤ c && c ≤ 'f' then some (c.toNat - 87)
  else if 'A' ≤ c && c ≤ 'F' then some (c.toNat - 55)
  else none

/-- The mantissa loop of strconv readFloat: consume digits, underscores
(validated separately by underscoreOK) and at most one decimal point,
accumulating the digit string as an exact integer and the count of
fractional digits, and stop at the first other character (or at a
second dot), returning the unconsumed rest. -/
def scanFloatMantissa (digVal : Char → Option Nat) (base : Nat) (l : List Char)
    (sawdot : Bool) (mant frac : Nat) (sawDigits : Bool) : Nat × Nat × Bool × List Char :=
  match l with
  | [] => (mant, frac, sawDigits, [])
  | c :: rest =>
    if c = '_' then scanFloatMantissa digVal base rest sawdot mant frac sawDigits
    else if c = '.' then
      if sawdot then (mant, frac, sawDigits, '.' :: rest)
      else scanFloatMantissa digVal base rest true mant frac sawDigits
    else
      match digVal c with
      | some d =>
        scanFloatMantissa digVal base rest sawdot (mant * base + d)
          (if sawdot then frac + 1 else frac) true
      | none => (mant, frac, sawDigits, c :: rest)

/-- The exponent part after the e/E (or p/P) marker: an optional sign,
then a first character that must be a digit, then digits and
underscores to the end of the string (anything else would leave
unconsumed input, which ParseFloat rejects).  The value accumulates
exactly as in the source: another digit is added only while the
running value is below 10000, so huge exponents saturate. -/
def parseFloatExpPart (l : List Char) : Option (Bool × Nat) :=
  let (negE, ds) :=
    match l with
    | '+' :: rest => (false, rest)
    | '-' :: rest => (true, rest)
    | rest => (false, rest)
  match ds with
  | [] => none
  | c :: _ =>
    if !c.isDigit then none
    else if ds.all (fun d => d.isDigit || d = '_') then
      some (negE, ds.foldl
        (fun e d => if d = '_' then e else if e < 10000 then e * 10 + (d.toNat - 48) else e) 0)
    else none

/-- State of the underscoreOK walk: beginning of the number, a digit
(or base prefix), an underscore, or any other character. -/
inductive UnderscoreSaw where
  | start | digit | underscore | other

/-- The loop of strconv underscoreOK: a digit always resets the state,
an underscore must follow a digit (or the base prefix) and must be
followed by a digit, and the walk must not end on an underscore. -/
def underscoreScan (hexPre : Bool) (l : List Char) (saw : UnderscoreSaw) : Bool :=
  match l with
  | [] =>
    match saw with
    | UnderscoreSaw.underscore => false
    | _ => true
  | c :: rest =>
    if c.isDigit || (hexPre && (('a' ≤ c && c ≤ 'f') || ('A' ≤ c && c ≤ 'F'))) then
      underscoreScan hexPre rest UnderscoreSaw.digit
    else if c = '_' then
      match saw with
      | UnderscoreSaw.digit => underscoreScan hexPre rest UnderscoreSaw.underscore
      | _ => false
    else
      match saw with
      | UnderscoreSaw.underscore => false
      | _ => underscoreScan hexPre rest UnderscoreSaw.other

/-- strconv underscoreOK: after an optional sign and an optional 0b, 0o
or 0x base prefix (which counts as a digit), underscores may appear
only between digits. -/
def underscoreOKChars (l : List Char) : Bool :=
  let l1 := dropFloatSign l
  match l1 with
  | '0' :: c :: rest =>
    if c = 'b' || c = 'B' || c = 'o' || c = 'O' || c = 'x' || c = 'X' then
      underscoreScan (c = 'x' || c = 'X') rest UnderscoreSaw.digit
    else underscoreScan false l1 UnderscoreSaw.start
  | _ => underscoreScan false l1 UnderscoreSaw.start

/-- The decimal branch of readFloat: a mantissa with at least one
digit, then optionally e/E and an exponent part consuming the rest.
The result is the exact magnitude as mantissa, base and scale:
value = mant * base ^ k. -/
def readFloatDecimal (l : List Char) : Option (Nat × Nat × Int) :=
  match scanFloatMantissa decimalDigitVal 10 l false 0 0 false with
  | (mant, frac, sawDigits, rest) =>
    if !sawDigits then none
    else
      match rest with
      | [] => some (mant, 10, -(frac : Int))
      | c :: er =>
        if c = 'e' || c = 'E' then
          match parseFloatExpPart er with
          | some (negE, e) =>
            some (mant, 10, (if negE then -(e : Int) else (e : Int)) - (frac : Int))
          | none => none
        else none

/-- The hexadecimal branch of readFloat: a hex mantissa with at least
one digit and a mandatory p/P power-of-two exponent; each fractional
hex digit scales by 2^-4. -/
def readFloatHex (l : List Char) : Option (Nat × Nat × Int) :=
  match scanFloatMantissa hexDigitVal 16 l false 0 0 false with
  | (mant, frac, sawDigits, rest) =>
    if !sawDigits then none
    else
      match rest with
      | c :: er =>
        if c = 'p' || c = 'P' then
          match parseFloatExpPart er with
          | some (negE, e) =>
            some (mant, 2, (if negE then -(e : Int) else (e : Int)) - 4 * (frac : Int))
          | none => none
        else none
      | [] => none

/-- readFloat over the whole string: drop one optional sign (the sign
never affects the error outcome), take the hex branch when 0x or 0X is
followed by at least one more character (the source requires
i+2 < len(s)), otherwise the decimal branch. -/
def readFloatChars (l0 : List Char) : Option (Nat × Nat × Int) :=
  let l1 := dropFloatSign l0
  match l1 with
  | '0' :: x :: c :: rest =>
    if x = 'x' || x = 'X' then readFloatHex (c :: rest)
    else readFloatDecimal l1
  | _ => readFloatDecimal l1

/-- The smallest magnitude that float64 round-to-nearest-even sends to
infinity: half an ulp above the largest finite float64, i.e.
2^1024 - 2^970 (the tie itself rounds up to the even 2^1024). -/
def float64OverflowBound : Nat := 2 ^ 1024 - 2 ^ 970

/-- Whether the scanned value mant * base ^ k reaches the overflow
bound, by exact integer comparison.  ParseFloat reports ErrRange
exactly for these inputs; an underflowing value returns 0 with a nil
error (the conversion routines in the source flag only overflow). -/
def floatOverflows (mant base : Nat) (k : Int) : Bool :=
  if mant = 0 then false
  else if 0 ≤ k then float64OverflowBound ≤ mant * base ^ k.toNat
  else float64OverflowBound * base ^ (-k).toNat ≤ mant

/-- Whether strconv.ParseFloat(s, 64) returns a nil error: a special
value, or a fully consumed readFloat scan with well-placed underscores
whose exact value stays below the overflow bound. -/
def goParseFloatOk (s : String) : Bool :=
  specialFloatOk s.data ||
    (match readFloatChars s.data with
     | some (mant, base, k) => underscoreOKChars s.data && !floatOverflows mant base k
     | none => false)

/-- The default-value coercion at the end of Build: boolean first, then
signed 64-bit integer, then 64-bit float, then the raw string. -/
def coerceDefaultValue (s : String) : SValue :=
  match goParseBool s with
  | some v => SValue.vb v
  | none =>
    match goParseInt64 s with
    | some v => SValue.vi v
    | none =>
      if goParseFloatOk s then SValue.vf s else SValue.vs s

/-- Insertion sort of built struct-fields by ascending field index,
mirroring supporting.Sort over field.Index(); the relative order of
equal indices is unspecified in Go (map iteration), so any consistent
choice is faithful. -/
def insertByIndex (p : Int × SStruct) : List (Int × SStruct) → List (Int × SStruct)
  | [] => [p]
  | q :: rest => if p.1 < q.1 then p :: q :: rest else q :: insertByIndex p rest

def sortByIndex : List (Int × SStruct) → List (Int × SStruct)
  | [] => []
  | p :: rest => insertByIndex p (sortByIndex rest)

mutual

/-- schemaBuilderImpl.Build.  A nil sub-builder in the ARRAY and MAP
cases would make the source panic, so the result is Option.  In the
STRUCT case the source sorts the field values by index and then builds
each one; building does not depend on position, so the model builds
each field alongside its index and sorts the results, which yields the
same list. -/
def SBuilder.build : SBuilder → Option SStruct
  | SBuilder.mk fieldName schemaName schemaType _version optional defaultValue
      _documentation index parameters fields keySchemaBuilder valueSchemaBuilder =>
    let base : SStruct := [(FieldNameType, SValue.vty schemaType)]
    let typed : Option SStruct :=
      match schemaType with
      | SchemaType.ARRAY =>
        match buildOptSBuilder valueSchemaBuilder with
        | some vs => some (setEntry FieldNameValueSchema (SValue.vobj vs) base)
        | none => none
      | SchemaType.MAP =>
        match buildOptSBuilder keySchemaBuilder, buildOptSBuilder valueSchemaBuilder with
        | some ks, some vs =>
          some (setEntry FieldNameValueSchema (SValue.vobj vs)
            (setEntry FieldNameKeySchema (SValue.vobj ks) base))
        | _, _ => none
      | SchemaType.STRUCT =>
        match buildSFields fields with
        | some built =>
          some (setEntry FieldNameFields (SValue.varr ((sortByIndex built).map Prod.snd)) base)
        | none => none
      | _ => some base
    match typed with
    | none => none
    | some st0 =>
      let st1 := if fieldName ≠ "" then setEntry FieldNameField (SValue.vs fieldName) st0 else st0
      let st2 := if schemaName ≠ "" then setEntry FieldNameName (SValue.vs schemaName) st1 else st1
      let st3 := if index > -1 then setEntry FieldNameIndex (SValue.vi index) st2 else st2
      let st4 := if optional then setEntry FieldNameOptional (SValue.vb true) st3 else st3
      let st5 :=
        match defaultValue with
        | some d => setEntry FieldNameDefault (coerceDefaultValue d) st4
        | none => st4
      some (parameters.foldl (fun acc kv => setEntry kv.1 kv.2 acc) st5)

def buildOptSBuilder : Option SBuilder → Option SStruct
  | none => none
  | some b => SBuilder.build b

def buildSFields : List (String × SField) → Option (List (Int × SStruct))
  | [] => some []
  | (_, f) :: rest =>
    match buildSField f, buildSFields rest with
    | some s, some l => some ((f.index, s) :: l)
    | _, _ => none

/-- A field's struct: the pre-built schemaStruct when present (never in
this file), otherwise the stored builder is built. -/
def buildSField : SField → Option SStruct
  | SField.mk _name _index schemaStruct schemaBuilder =>
    match schemaStruct with
    | some st => some st
    | none => SBuilder.build schemaBuilder

end

/-! ### Schema registry (src/unnamed/part_001, package schema)

Registry.GetSchemaOrCreate runs under the registry's reentrant lock,
so it is modelled as a pure transformer of the name-to-struct map.
The creator callback is instrumented with an invocation count so that
at-most-once invocation is a provable statement. -/

def getSchemaOrCreate (reg : List (String × SStruct)) (schemaName : String)
    (creator : Unit → SStruct) : SStruct × List (String × SStruct) × Nat :=
  match lookupEntry schemaName reg with
  | some schema => (schema, reg, 0)
  | none =>
    let schema := creator ()
    (schema, setEntry schemaName schema reg, 1)

/-! ### CLI entry point (src/tests/streamer_restart_test.go, package main)

The start action validates the configuration before constructing the
streamer.  File-system outcomes of opening, reading and decoding the
configuration file are inputs here; the error side of the result
carries the exit code handed to cli.NewExitError.  The model stops at
the point where the streamer is constructed and started (marked by
started); the claim concerns only the error paths before it. -/

inductive ConfigFileOutcome where
  | openError
  | readError
  | decodeError
  | decoded (cfg : String → Option String)

inductive StartResult where
  | exitWithCode (code : Nat)
  | started
  deriving DecidableEq

/-- The empty configuring.Config document that start begins from; every
property path resolves to a missing (zero) value. -/
def emptyConfigDoc : String → Option String := fun _ => none

/-- The configuration-loading and validation prefix of start.  A
missing --config flag (empty configurationFile) skips the file entirely
and keeps the empty document. -/
def startAction (env : String → Option String)
    (configurationFile : Option ConfigFileOutcome) : StartResult :=
  let afterLoad : Except Nat (String → Option String) :=
    match configurationFile with
    | none => Except.ok emptyConfigDoc
    | some ConfigFileOutcome.openError => Except.error 3
    | some ConfigFileOutcome.readError => Except.error 4
    | some ConfigFileOutcome.decodeError => Except.error 5
    | some (ConfigFileOutcome.decoded cfg) => Except.ok cfg
  match afterLoad with
  | Except.error code => StartResult.exitWithCode code
  | Except.ok cfg =>
    if GetOrDefault stringGoType env cfg "postgresql.connection" "" = "" then
      StartResult.exitWithCode 6
    else
      StartResult.started

/-- The TimescaleDB extension probe inside NewReplicationContext
(src/unnamed/part_002): when getTimescaleDBVersion reports the
extension as not found, construction fails with cli.NewExitError code
17. -/
def timescaleExtensionGate (tsdbFound : Bool) : Except Nat Unit :=
  if tsdbFound then Except.ok () else Except.error 17

/-! ### CLI flag wiring (src/tests/streamer_restart_test.go, main)

Four flags are declared; the config flag writes configurationFile, the
verbose flag writes verbose, and BOTH the caller flag and the debug
flag name the package variable withCaller as their destination.  The
package variable debug is not the destination of any flag, so parsing
leaves it at its zero value false.  A boolean destination ends up true
exactly when some flag bound to it was passed. -/

structure CLIInvocation where
  configValue : String
  verboseGiven : Bool
  callerGiven : Bool
  debugGiven : Bool

structure MainVars where
  configurationFile : String
  verbose : Bool
  debug : Bool
  withCaller : Bool
  deriving DecidableEq

def parseFlags (inv : CLIInvocation) : MainVars :=
  { configurationFile := inv.configValue
    verbose := inv.verboseGiven
    debug := false
    withCaller := inv.callerGiven || inv.debugGiven }

/-- The logging package variables assigned at the top of start. -/
structure LoggingVars where
  withCallerLog : Bool
  withVerbose : Bool
  withDebug : Bool
  deriving DecidableEq

def applyLoggingVars (vars : MainVars) : LoggingVars :=
  { withCallerLog := vars.withCaller
    withVerbose := vars.verbose
    withDebug := vars.debug }

/-- A concrete command line passing only the debug flag, used by the
flag-wiring witness. -/
def debugOnlyInvocation : CLIInvocation :=
  { configValue := "", verboseGiven := false, callerGiven := false, debugGiven := true }

/-- A concrete replication-context state used by counterexamples and
witnesses below: lastProcessed is 10, everything else 0. -/
def sampleRCState : RCState :=
  { lastBeginLSN := 0, lastCommitLSN := 0, lastReceivedLSN := 0,
    lastProcessedLSN := 10, lastTransactionId := 0 }

/-! ## Theorems -/

theorem lookupEntry_setEntry_self {α : Type} (k : String) (v : α) (m : List (String × α)) :
    lookupEntry k (setEntry k v m) = some v := by
  induction m with
  | nil => simp [setEntry, lookupEntry]
  | cons hd tl ih =>
    obtain ⟨k', v'⟩ := hd
    by_cases h : k' = k <;> simp [setEntry, lookupEntry, h, ih]

/-- C1: AcknowledgeProcessed advances the in-memory lastProcessed LSN
to the maximum of its current value and the candidate (the explicit
processedLSN when non-nil, otherwise WALStart plus the payload length),
persists under the slot name an Offset whose lsn is the updated
lastProcessed and whose timestamp is the message server time, and thus
the persisted lastProcessed never exceeds the in-memory value. -/
theorem claim1_acknowledgeProcessed (slotName : String) (s : RCState)
    (storage : List (String × Offset)) (xld : XLogData) (processedLSN : Option Nat) :
    (acknowledgeProcessed slotName s storage xld processedLSN).1.lastProcessedLSN
        = max s.lastProcessedLSN (newProcessedLSN xld processedLSN)
    ∧ lookupEntry slotName (acknowledgeProcessed slotName s storage xld processedLSN).2
        = some { (lookupEntry slotName storage).getD Offset.zero with
                 lsn := (acknowledgeProcessed slotName s storage xld processedLSN).1.lastProcessedLSN
                 timestamp := xld.serverTime }
    ∧ ((lookupEntry slotName (acknowledgeProcessed slotName s storage xld processedLSN).2).getD
          Offset.zero).lsn
        ≤ (acknowledgeProcessed slotName s storage xld processedLSN).1.lastProcessedLSN := by
  refine ⟨?_, ?_, ?_⟩
  · simp only [acknowledgeProcessed]
    split <;> simp <;> omega
  · simp only [acknowledgeProcessed]
    split <;> simp [lookupEntry_setEntry_self]
  · simp only [acknowledgeProcessed]
    split <;> simp [lookupEntry_setEntry_self]

/-- C2 counterexample: SetPositionLSNs writes the lastProcessed field
without any monotonicity guard, so an execution that calls it with a
smaller position leaves lastProcessed below its previous value. -/
theorem claim2_counterexample :
    ¬ ((setPositionLSNs sampleRCState 5 5).lastProcessedLSN
        ≥ sampleRCState.lastProcessedLSN) := by
  decide

/-- C2 amended: AcknowledgeProcessed never decreases lastProcessed, but
SetPositionLSNs assigns the supplied processed position unconditionally
(and so can decrease it). -/
theorem claim2_amended (slotName : String) (s : RCState) (storage : List (String × Offset))
    (xld : XLogData) (processedLSN : Option Nat) (receivedLSN newLSN : Nat) :
    s.lastProcessedLSN
        ≤ (acknowledgeProcessed slotName s storage xld processedLSN).1.lastProcessedLSN
    ∧ (setPositionLSNs s receivedLSN newLSN).lastProcessedLSN = newLSN := by
  constructor
  · simp only [acknowledgeProcessed]
    split
    · simp
      omega
    · simp
  · rfl

/-- C4: GetSchemaOrCreate invokes the creator at most once per name: a
registered name returns the stored schema with no invocation, an
unregistered name invokes the creator exactly once and registers the
result, and a subsequent call with the same name returns the stored
schema without invoking its own creator. -/
theorem claim4_getSchemaOrCreate (reg : List (String × SStruct)) (schemaName : String)
    (creator : Unit → SStruct) :
    (getSchemaOrCreate reg schemaName creator).2.2 ≤ 1
    ∧ (∀ s, lookupEntry schemaName reg = some s →
        getSchemaOrCreate reg schemaName creator = (s, reg, 0))
    ∧ (lookupEntry schemaName reg = none →
        getSchemaOrCreate reg schemaName creator
            = (creator (), setEntry schemaName (creator ()) reg, 1)
          ∧ lookupEntry schemaName (getSchemaOrCreate reg schemaName creator).2.1
            = some (creator ()))
    ∧ (∀ creator2 : Unit → SStruct,
        getSchemaOrCreate (getSchemaOrCreate reg schemaName creator).2.1 schemaName creator2
          = ((getSchemaOrCreate reg schemaName creator).1,
             (getSchemaOrCreate reg schemaName creator).2.1, 0)) := by
  cases h : lookupEntry schemaName reg with
  | some s => simp [getSchemaOrCreate, h]
  | none => simp [getSchemaOrCreate, h, lookupEntry_setEntry_self]

theorem claim4_witness :
    lookupEntry "k" ([] : List (String × SStruct)) = none
    ∧ getSchemaOrCreate ([] : List (String × SStruct)) "k" (fun _ => [])
        = ([], [("k", ([] : SStruct))], 1) :=
  ⟨rfl, ((claim4_getSchemaOrCreate [] "k" (fun _ => [])).2.2.1 rfl).1⟩

theorem goUpperChar_underscore_iff (c : Char) : goUpperChar c = '_' ↔ c = '_' := by
  unfold goUpperChar
  split <;> simp_all

theorem goUpperChar_dot_iff (c : Char) : goUpperChar c = '.' ↔ c = '.' := by
  unfold goUpperChar
  split <;> simp_all

/-- The environment-variable name the source computes in three passes
equals the single-pass transformation the specification describes. -/
theorem envVarNameChars_eq_spec (key : List Char) :
    envVarNameChars key = specEnvVarNameChars key := by
  have hdotUp : goUpperChar '.' = '.' := by decide
  have huUp : goUpperChar '_' = '_' := by decide
  induction key with
  | nil => rfl
  | cons c rest ih =>
    by_cases hd : c = '.'
    · subst hd
      simp [envVarNameChars, specEnvVarNameChars, doubleUnderscores, dotsToUnderscores,
        hdotUp] at ih ⊢
      simpa using ih
    · by_cases hu : c = '_'
      · subst hu
        simp [envVarNameChars, specEnvVarNameChars, doubleUnderscores, dotsToUnderscores,
          huUp] at ih ⊢
        simpa using ih
      · have h1 : goUpperChar c ≠ '_' := fun h => hu ((goUpperChar_underscore_iff c).mp h)
        have h2 : goUpperChar c ≠ '.' := fun h => hd ((goUpperChar_dot_iff c).mp h)
        simp [envVarNameChars, specEnvVarNameChars, doubleUnderscores, dotsToUnderscores,
          hd, hu, h1, h2] at ih ⊢
        simpa using ih

/-- C5: GetOrDefault consults the environment variable named by
upper-casing the key, doubling every original underscore and turning
every dot into a single underscore; the example key maps as the claim
states; and an environment value the lookup accepts wins over whatever
the configuration document holds. -/
theorem claim5_envOverride :
    (∀ key : List Char, envVarNameChars key = specEnvVarNameChars key)
    ∧ envVarName "postgresql.transaction.window.maxsize"
        = "POSTGRESQL_TRANSACTION_WINDOW_MAXSIZE"
    ∧ (∀ (V : Type) (τ : GoType V) (env : String → Option String)
        (cfg : String → Option V) (key : String) (defaultValue : V) (v : String) (cv : V),
        env (envVarName key) = some v → τ.convertFromString v = some cv →
        τ.isZero cv = false → GetOrDefault τ env cfg key defaultValue = cv) := by
  refine ⟨envVarNameChars_eq_spec, by decide, ?_⟩
  intro V τ env cfg key defaultValue v cv henv hconv hzero
  simp [GetOrDefault, findEnvProperty, henv, hconv, hzero]

theorem claim5_witness :
    (fun n => if n = "A_B" then some "val" else none : String → Option String)
        (envVarName "a.b") = some "val"
    ∧ GetOrDefault stringGoType (fun n => if n = "A_B" then some "val" else none)
        (fun _ => some "other") "a.b" "" = "val" := by
  refine ⟨by decide, ?_⟩
  exact claim5_envOverride.2.2 String stringGoType _ _ "a.b" "" "val" "val"
    (by decide) rfl (by decide)

/-- GetOrDefault never returns the zero value of its type when the
supplied default is not the zero value: every returned value is either
the non-zero environment value, the non-zero configuration value, or
the default itself. -/
theorem getOrDefault_isZero_false {V : Type} (τ : GoType V) (env : String → Option String)
    (cfg : String → Option V) (key : String) (defaultValue : V)
    (h : τ.isZero defaultValue = false) :
    τ.isZero (GetOrDefault τ env cfg key defaultValue) = false := by
  unfold GetOrDefault findEnvProperty
  cases henv : env (envVarName key) with
  | some val =>
    cases hconv : τ.convertFromString val with
    | some cv =>
      by_cases hz : τ.isZero cv
      · simp only [hz]
        cases hcfg : cfg key with
        | some element =>
          by_cases hze : τ.isZero element <;> simp_all
        | none => simp_all
      · simp_all
    | none =>
      cases hcfg : cfg key with
      | some element => by_cases hze : τ.isZero element <;> simp_all
      | none => simp_all
  | none =>
    cases hcfg : cfg key with
    | some element => by_cases hze : τ.isZero element <;> simp_all
    | none => simp_all

/-- C9: a zero-valued configuration entry yields the default (when no
environment override applies), a zero-converting environment variable
is treated as unset, and hence a zero value from either source never
overrides a non-zero default. -/
theorem claim9_zeroNeverOverrides :
    ∀ (V : Type) (τ : GoType V) (env : String → Option String) (cfg : String → Option V)
      (key : String) (defaultValue : V),
    (∀ element, findEnvProperty τ env key = none → cfg key = some element →
        τ.isZero element = true →
        GetOrDefault τ env cfg key defaultValue = defaultValue)
    ∧ (∀ v cv, env (envVarName key) = some v → τ.convertFromString v = some cv →
        τ.isZero cv = true → findEnvProperty τ env key = none)
    ∧ (τ.isZero defaultValue = false →
        τ.isZero (GetOrDefault τ env cfg key defaultValue) = false) := by
  intro V τ env cfg key defaultValue
  refine ⟨?_, ?_, getOrDefault_isZero_false τ env cfg key defaultValue⟩
  · intro element hfe hcfg hz
    simp [GetOrDefault, hfe, hcfg, hz]
  · intro v cv henv hconv hz
    simp [findEnvProperty, henv, hconv, hz]

theorem claim9_witness :
    findEnvProperty stringGoType (fun _ => some "") "postgresql.connection" = none
    ∧ GetOrDefault stringGoType (fun _ => some "") (fun _ => some "")
        "postgresql.connection" "defaultConn" = "defaultConn"
    ∧ stringGoType.isZero
        (GetOrDefault stringGoType (fun _ => some "") (fun _ => some "")
          "postgresql.connection" "defaultConn") = false := by
  have h := claim9_zeroNeverOverrides String stringGoType (fun _ => some "")
    (fun _ => some "") "postgresql.connection" "defaultConn"
  have hfe : findEnvProperty stringGoType (fun _ => some "") "postgresql.connection" = none :=
    h.2.1 "" "" rfl rfl (by decide)
  exact ⟨hfe, h.1 "" hfe rfl (by decide), h.2.2 (by decide)⟩

/-- C6: with the transaction window enabled (a flag that defaults to
true when unconfigured), NewTransactionResolver returns the windowed
transaction tracker carrying the configured window timeout (60 seconds
when unconfigured) and the configured maximum size, which is always
positive; with the window disabled it returns the plain logical
replication resolver. -/
theorem claim6_transactionResolver (env : String → Option String)
    (cfgBool : String → Option Bool) (cfgDur : String → Option Int)
    (cfgUint : String → Option Nat) :
    (windowEnabled env cfgBool = true →
      NewTransactionResolver env cfgBool cfgDur cfgUint
        = ResolverChoice.transactionTracker (windowTimeout env cfgDur)
            (windowMaxSize env cfgUint))
    ∧ (windowEnabled env cfgBool = false →
        NewTransactionResolver env cfgBool cfgDur cfgUint
          = ResolverChoice.logicalReplicationResolver)
    ∧ (env (envVarName "postgresql.transaction.window.enabled") = none →
        cfgBool "postgresql.transaction.window.enabled" = none →
        windowEnabled env cfgBool = true)
    ∧ (env (envVarName "postgresql.transaction.window.timeout") = none →
        cfgDur "postgresql.transaction.window.timeout" = none →
        windowTimeout env cfgDur = 60 * nanosecondsPerSecond)
    ∧ windowMaxSize env cfgUint > 0 := by
  have hpos : windowMaxSize env cfgUint > 0 := by
    have h := getOrDefault_isZero_false uintGoType env cfgUint
      "postgresql.transaction.window.maxsize" 10000 (by decide)
    simp only [uintGoType, decide_eq_false_iff_not] at h
    exact Nat.pos_of_ne_zero h
  refine ⟨?_, ?_, ?_, ?_, hpos⟩
  · intro hEnabled
    simp [NewTransactionResolver, hEnabled, hpos]
  · intro hDisabled
    simp [NewTransactionResolver, hDisabled]
  · intro henv hcfg
    simp [windowEnabled, GetOrDefault, findEnvProperty, henv, hcfg]
  · intro henv hcfg
    simp [windowTimeout, GetOrDefault, findEnvProperty, henv, hcfg]

theorem claim6_witness :
    windowEnabled (fun _ => none) (fun _ => none) = true
    ∧ NewTransactionResolver (fun _ => none) (fun _ => none) (fun _ => none) (fun _ => none)
        = ResolverChoice.transactionTracker 60000000000 10000 := by
  have h := claim6_transactionResolver (fun _ => none) (fun _ => none)
    (fun _ => none) (fun _ => none)
  have hEnabled := h.2.2.1 rfl rfl
  refine ⟨hEnabled, ?_⟩
  rw [h.1 hEnabled, h.2.2.2.1 rfl rfl]
  rfl

/-- C7: start exits with code 3 when the configuration file cannot be
opened, 4 when it cannot be read, 5 when it cannot be decoded, 6 when
the resolved postgresql.connection value is empty, and the replication
context constructor fails with code 17 when the TimescaleDB extension
is not found. -/
theorem claim7_exitCodes :
    (∀ env, startAction env (some ConfigFileOutcome.openError) = StartResult.exitWithCode 3)
    ∧ (∀ env, startAction env (some ConfigFileOutcome.readError) = StartResult.exitWithCode 4)
    ∧ (∀ env, startAction env (some ConfigFileOutcome.decodeError) = StartResult.exitWithCode 5)
    ∧ (∀ env cfg, GetOrDefault stringGoType env cfg "postgresql.connection" "" = "" →
        startAction env (some (ConfigFileOutcome.decoded cfg)) = StartResult.exitWithCode 6)
    ∧ timescaleExtensionGate false = Except.error 17 := by
  refine ⟨fun _ => rfl, fun _ => rfl, fun _ => rfl, ?_, rfl⟩
  intro env cfg hconn
  simp [startAction, hconn]

theorem claim7_witness :
    GetOrDefault stringGoType (fun _ => none) (fun _ => none) "postgresql.connection" "" = ""
    ∧ startAction (fun _ => none) (some (ConfigFileOutcome.decoded (fun _ => none)))
        = StartResult.exitWithCode 6 :=
  ⟨rfl, claim7_exitCodes.2.2.2.1 (fun _ => none) (fun _ => none) rfl⟩

/-- C8: the debug flag's destination is the withCaller package
variable, so passing the debug flag turns caller collection on, while
the debug package variable is never bound to a flag and
logging.WithDebug therefore stays false. -/
theorem claim8_debugFlagWiring (inv : CLIInvocation) :
    (parseFlags inv).debug = false
    ∧ (applyLoggingVars (parseFlags inv)).withDebug = false
    ∧ (inv.debugGiven = true →
        (parseFlags inv).withCaller = true
        ∧ (applyLoggingVars (parseFlags inv)).withCallerLog = true) := by
  refine ⟨rfl, rfl, ?_⟩
  intro h
  simp [parseFlags, applyLoggingVars, h]

theorem claim8_witness :
    (applyLoggingVars (parseFlags debugOnlyInvocation)).withCallerLog = true
    ∧ (applyLoggingVars (parseFlags debugOnlyInvocation)).withDebug = false := by
  have h := claim8_debugFlagWiring debugOnlyInvocation
  exact ⟨(h.2.2 rfl).2, h.2.1⟩

/-- C3 fails on the code: Clone copies every builder field except
index, so a fresh INT8 builder (index -1, whose Build emits no index
entry) clones to a builder with index 0, whose Build emits an index
entry of 0; the two built structs differ.  The surrounding evidence
(Clone initialises all eleven other fields from the source and the
specification demands Build(Clone(b)) == Build(b)) makes the missing
index copy a slip in the code. -/
theorem claim3_cloneDropsIndex :
    (SBuilder.build (NewSchemaBuilder SchemaType.INT8)).bind (lookupEntry FieldNameIndex)
        = none
    ∧ (SBuilder.build (SBuilder.clone (NewSchemaBuilder SchemaType.INT8))).bind
        (lookupEntry FieldNameIndex) = some (SValue.vi 0)
    ∧ SBuilder.build (SBuilder.clone (NewSchemaBuilder SchemaType.INT8))
        ≠ SBuilder.build (NewSchemaBuilder SchemaType.INT8) := by
  have h1 : SBuilder.build (NewSchemaBuilder SchemaType.INT8)
      = some [(FieldNameType, SValue.vty SchemaType.INT8)] := rfl
  have h2 : SBuilder.build (SBuilder.clone (NewSchemaBuilder SchemaType.INT8))
      = some [(FieldNameType, SValue.vty SchemaType.INT8), (FieldNameIndex, SValue.vi 0)] := rfl
  refine ⟨by rw [h1]; rfl, by rw [h2]; rfl, ?_⟩
  intro h
  have hb := congrArg (fun o => Option.bind o (lookupEntry FieldNameIndex)) h
  rw [h1, h2] at hb
  simp [lookupEntry, FieldNameType, FieldNameIndex] at hb

/-- C10: the stored default-value string is coerced in a fixed order,
boolean first, then signed 64-bit integer, then 64-bit float, then the
raw string; in particular the string 1 becomes boolean true, not the
number 1. -/
theorem claim10_defaultCoercion :
    (∀ s b, goParseBool s = some b → coerceDefaultValue s = SValue.vb b)
    ∧ (∀ s n, goParseBool s = none → goParseInt64 s = some n →
        coerceDefaultValue s = SValue.vi n)
    ∧ (∀ s, goParseBool s = none → goParseInt64 s = none → goParseFloatOk s = true →
        coerceDefaultValue s = SValue.vf s)
    ∧ (∀ s, goParseBool s = none → goParseInt64 s = none → goParseFloatOk s = false →
        coerceDefaultValue s = SValue.vs s)
    ∧ coerceDefaultValue "1" = SValue.vb true := by
  refine ⟨?_, ?_, ?_, ?_, rfl⟩
  · intro s b h
    simp [coerceDefaultValue, h]
  · intro s n hb hi
    simp [coerceDefaultValue, hb, hi]
  · intro s hb hi hf
    simp [coerceDefaultValue, hb, hi, hf]
  · intro s hb hi hf
    simp [coerceDefaultValue, hb, hi, hf]

theorem claim10_witness :
    (goParseBool "0" = some false ∧ coerceDefaultValue "0" = SValue.vb false)
    ∧ (goParseBool "7" = none ∧ goParseInt64 "7" = some 7
        ∧ coerceDefaultValue "7" = SValue.vi 7)
    ∧ (goParseBool "0.0" = none ∧ goParseInt64 "0.0" = none ∧ goParseFloatOk "0.0" = true
        ∧ coerceDefaultValue "0.0" = SValue.vf "0.0")
    ∧ (goParseBool "abc" = none ∧ goParseInt64 "abc" = none ∧ goParseFloatOk "abc" = false
        ∧ coerceDefaultValue "abc" = SValue.vs "abc") :=
  ⟨⟨rfl, claim10_defaultCoercion.1 "0" false rfl⟩,
   ⟨rfl, rfl, claim10_defaultCoercion.2.1 "7" 7 rfl rfl⟩,
   ⟨rfl, rfl, rfl, claim10_defaultCoercion.2.2.1 "0.0" rfl rfl rfl⟩,
   ⟨rfl, rfl, rfl, claim10_defaultCoercion.2.2.2.1 "abc" rfl rfl rfl⟩⟩

end TsdbStreamer
